import Mathlib

/-!
Verification of the prediction lifecycle engine of the mlb-predict repository.

The development shallowly embeds the claim-relevant parts of `predict.py`
(the recurring variant; `make_predictions.py` shares the same logic for the
embedded fragments) as executable Lean definitions:

* `Row` models one row of the persisted predictions sheet
  (`data/predictions.xlsx`).  Columns not touched by any verified property
  (bookmakers, venue, tweet payload, `prediction_value`, ...) are omitted.
  `prediction_accuracy` values 1.0 / 0.0 / null are modelled as
  `some true` / `some false` / `none`.  American odds are modelled as signed
  integers, following the data model (the sheet serialises them as text in
  the recurring variant; the arithmetic in `update_row` is on the numbers).
  Timestamps (`datetime`, `prediction_generation_time`) are minutes on an
  absolute scale; `dateOf` is the `.dt.date` projection (1440 minutes per
  day).
* `Game` models the record returned by `statsapi.schedule(game_id=..)[0]`;
  the external results source is an oracle `fetch : Nat → Except Unit Game`
  whose `.error` case stands for a raised exception.
* `update_row_final` is the body of `update_row` after the result was
  fetched (predict.py lines 41-80); `reconcileRows` applies it to the rows
  with null `prediction_accuracy`, in order, threading the module-level
  counters (`global_correct`, `global_wrong`, `global_biggest_upset`,
  `global_upset_diff`) through `Stats`, and aborting on the first raised
  fetch, exactly as `df.apply(update_row, axis=1)` does.
* `load_unchecked_predictions` is `load_unchecked_predictions_from_excel`:
  on success it persists the updated frame and computes the summary; on an
  exception the caller (`check_and_predict`) catches it, so the sheet keeps
  its old contents and no summary is produced.
* `generate_daily_predictions` embeds the generator, with the fixtures/odds
  source and the prediction model as oracles.  `GenResult.modelCalls` logs
  each invocation of `mlb.predict_next_game` with the model identifier the
  code actually passes; `GenResult.oddsFetched` records whether
  `get_todays_odds` was called; `GenResult.store` is the sheet contents
  after the call.
-/

/-- Calendar-date projection of a minute timestamp, modelling
`pd.to_datetime(col).dt.date` (1440 minutes per day). -/
def dateOf (t : Int) : Int := t / 1440

/-- One row of the predictions sheet (the claim-relevant columns). -/
structure Row where
  gameId : Nat
  home : String
  away : String
  predictedWinner : String
  model : String
  homeOdds : Int
  awayOdds : Int
  datetime : Int
  genTime : Int
  accuracy : Option Bool
  homeScore : Option Int
  awayScore : Option Int
  winningPitcher : Option String
  losingPitcher : Option String
  summary : Option String
deriving DecidableEq, Repr

/-- The result record returned by the external results source for a game id
(`statsapi.schedule(game_id=id)[0]`).  `winningTeam` is `game.get("winning_team")`,
absent (`None`) when the event ended without a determinable winner. -/
structure Game where
  status : String
  winningTeam : Option String
  homeScore : Int
  awayScore : Int
  winningPitcher : String
  losingPitcher : String
  datetime : Int
  gameId : Nat
  summary : String
deriving DecidableEq, Repr

/-- The module-level running statistics of predict.py:
`global_correct`, `global_wrong`, `global_biggest_upset`
(list `[actual_winner, winner_odds, losing_team, loser_odds]`) and
`global_upset_diff`. -/
structure Stats where
  correct : Nat
  wrong : Nat
  biggestUpset : Option (Option String × Int × String × Int)
  upsetDiff : Int
deriving DecidableEq, Repr

/-- The initial values of the module-level statistics (predict.py lines 19-22). -/
def initStats : Stats := ⟨0, 0, none, 0⟩

/-- Winner and loser odds of a finished game, as selected by `update_row`
(predict.py lines 50-53): home odds first exactly when the actual winner is
the home team. -/
def winnerLoserOdds (r : Row) (g : Game) : Int × Int :=
  if g.winningTeam = some r.home then (r.homeOdds, r.awayOdds)
  else (r.awayOdds, r.homeOdds)

/-- The losing team as computed by `update_row` (predict.py line 49). -/
def losingTeamOf (r : Row) (g : Game) : String :=
  if g.winningTeam = some r.away then r.home else r.away

/-- Odds-implied margin of an upset record
`(winner, winner_odds, loser, loser_odds)`:
`(|winner_odds| - 100) + (|loser_odds| - 100)` (predict.py line 56). -/
def tupleDiff (t : Option String × Int × String × Int) : Int :=
  (|t.2.1| - 100) + (|t.2.2.2| - 100)

/-- Body of `update_row` (predict.py lines 41-80) once the game record has
been fetched: no-op unless the status is "Final"; otherwise compute the
accuracy, update the counters and the biggest-upset state, and populate the
row's resolution fields. -/
def update_row_final (row : Row) (game : Game) (s : Stats) : Row × Stats :=
  if game.status ≠ "Final" then (row, s) else
  let actual := game.winningTeam
  let accuracy : Option Bool :=
    if actual = some row.predictedWinner then some true
    else if actual ≠ none then some false else none
  let wl := winnerLoserOdds row game
  let s' : Stats :=
    if accuracy = some true then
      let oddsDiff : Int := (|wl.1| - 100) + (|wl.2| - 100)
      if oddsDiff > s.upsetDiff ∧ wl.1 > 100 then
        { s with correct := s.correct + 1
                 upsetDiff := oddsDiff
                 biggestUpset := some (actual, wl.1, losingTeamOf row game, wl.2) }
      else { s with correct := s.correct + 1 }
    else { s with wrong := s.wrong + 1 }
  let row' : Row :=
    { row with
        accuracy := accuracy
        homeScore := some game.homeScore
        awayScore := some game.awayScore
        winningPitcher := some game.winningPitcher
        losingPitcher := some game.losingPitcher
        datetime := game.datetime
        gameId := game.gameId
        summary := some game.summary }
  (row', s')

/-- The reconciliation sweep `df[df["prediction_accuracy"].isnull()]
.apply(update_row, axis=1)` (predict.py lines 99-100): rows with non-null
accuracy are passed through untouched; for each null-accuracy row the result
is fetched (the game id is recorded as an attempted lookup) and the row is
updated; a raised fetch aborts the sweep, returning the statistics as
mutated so far.  Returns the attempted lookups and either the updated rows
with the final statistics or the abort. -/
def reconcileRows (fetch : Nat → Except Unit Game) :
    List Row → Stats → List Nat × Except Stats (List Row × Stats)
  | [], s => ([], Except.ok ([], s))
  | r :: rs, s =>
    if r.accuracy = none then
      match fetch r.gameId with
      | Except.error _ => ([r.gameId], Except.error s)
      | Except.ok game =>
        match reconcileRows fetch rs (update_row_final r game s).2 with
        | (calls, Except.error s') => (r.gameId :: calls, Except.error s')
        | (calls, Except.ok (rows', s')) =>
          (r.gameId :: calls, Except.ok ((update_row_final r game s).1 :: rows', s'))
    else
      match reconcileRows fetch rs s with
      | (calls, Except.error s') => (calls, Except.error s')
      | (calls, Except.ok (rows', s')) => (calls, Except.ok (r :: rows', s'))

/-- Round half to even at integer precision, the rounding used by Python's
built-in `round`. -/
def roundHalfEven (q : ℚ) : Int :=
  let f : Int := q.num.fdiv (q.den : Int)
  let r : ℚ := q - (f : ℚ)
  if r < (1 : ℚ)/2 then f
  else if (1 : ℚ)/2 < r then f + 1
  else if f % 2 = 0 then f else f + 1

/-- Python `round(q, 2)`. -/
def round2 (q : ℚ) : ℚ := ((roundHalfEven (q * 100) : ℚ)) / 100

/-- Python `int(q)`: truncation toward zero. -/
def pyTrunc (q : ℚ) : Int := q.num.tdiv (q.den : Int)

/-- The reported percentage `int(100 * round(correct / (correct + wrong), 2))`
(predict.py lines 103-111), over exact rationals. -/
def percentOf (c w : Nat) : Int :=
  pyTrunc (100 * round2 ((c : ℚ) / ((c : ℚ) + (w : ℚ))))

/-- The end-of-pass summary: emitted only when `correct + wrong > 0`
(predict.py line 102), carrying the integer percentage. -/
def reportOf (s : Stats) : Option Int :=
  if 0 < s.correct + s.wrong then some (percentOf s.correct s.wrong) else none

/-- Outcome of one reconciliation pass: the attempted result lookups, the
persisted sheet contents, the statistics after the pass, the emitted
summary, and whether the pass aborted with an exception. -/
structure PassResult where
  calls : List Nat
  persisted : List Row
  stats : Stats
  report : Option Int
  aborted : Bool
deriving DecidableEq, Repr

/-- The reconciliation pass `load_unchecked_predictions_from_excel`
(predict.py lines 83-164, excluding the tweet dispatch): on success the
updated frame is merged back (`df.update`) and written to the sheet and the
summary is computed from the counters; when a row's fetch raises, the
exception propagates to the caller (`check_and_predict` catches it), so the
sheet keeps its previous contents, no summary is produced, but the
module-level counters keep the increments made before the abort. -/
def load_unchecked_predictions (fetch : Nat → Except Unit Game)
    (df : List Row) (s : Stats) : PassResult :=
  match reconcileRows fetch df s with
  | (calls, Except.error s') => ⟨calls, df, s', none, true⟩
  | (calls, Except.ok (df', s')) => ⟨calls, df', s', reportOf s', false⟩

/-- Modelled from the spec: the selection predicate the specification states
for the recurring variant — rows with null `prediction_accuracy` whose event
start lies at least 6 hours (360 minutes) in the past relative to `now`.
Stated for comparison with the selection the code performs. -/
def selectionPerSpec (now : Int) (df : List Row) : List Row :=
  df.filter (fun r => decide (r.accuracy = none ∧ r.datetime ≤ now - 360))

/-- One fixture returned by the odds source `get_todays_odds`, with its
per-team odds table (`game.get(f"{team}_odds")`). -/
structure Fixture where
  homeTeam : String
  odds : String → Int

/-- The `info` dictionary returned by the prediction model, restricted to
the fields the generator reads. -/
structure PredictInfo where
  gameId : Nat
  home : String
  away : String
  datetime : Int
deriving DecidableEq, Repr

/-- Return value of `mlb.predict_next_game`: `(winner | None, confidence,
info)`; the confidence is not read by any verified property and is omitted. -/
structure PredictRet where
  winner : Option String
  info : PredictInfo
deriving DecidableEq, Repr

/-- Result of one generator call: the returned records, the sheet contents
after the call, the list of `(model_id, home_team)` arguments of every
invocation of the external model, and whether the odds source was called. -/
structure GenResult where
  returned : List Row
  store : List Row
  modelCalls : List (String × String)
  oddsFetched : Bool
deriving DecidableEq, Repr

/-- The generation loop of `generate_daily_predictions` (predict.py lines
205-285): fetch the odds, and for each fixture invoke
`mlb.predict_next_game("mlb2023", game["home_team"])` — the literal model
identifier the source passes — skipping fixtures whose prediction raises,
returns `None`, returns no winner, or returns a falsy (empty) winner; each
surviving fixture becomes a fresh row stamped with the `model` argument and
generation time `now`, appended to the sheet. -/
def generate_go (model : String) (now : Int) (df : List Row)
    (fixtures : List Fixture)
    (pred : String → String → Except Unit (Option PredictRet)) : GenResult :=
  let newRows := fixtures.filterMap (fun f =>
    match pred "mlb2023" f.homeTeam with
    | Except.error _ => none
    | Except.ok none => none
    | Except.ok (some ret) =>
      match ret.winner with
      | none => none
      | some w =>
        if w = "" then none
        else some
          { gameId := ret.info.gameId
            home := ret.info.home
            away := ret.info.away
            predictedWinner := w
            model := model
            homeOdds := f.odds ret.info.home
            awayOdds := f.odds ret.info.away
            datetime := ret.info.datetime
            genTime := now
            accuracy := none
            homeScore := none
            awayScore := none
            winningPitcher := none
            losingPitcher := none
            summary := none })
  { returned := newRows
    store := df ++ newRows
    modelCalls := fixtures.map (fun f => ("mlb2023", f.homeTeam))
    oddsFetched := true }

/-- `generate_daily_predictions` (predict.py lines 167-285).  `store0 = none`
models a missing sheet (`FileNotFoundError` → empty frame).  Dedup (lines
188-201): if some row's event date equals the target date `d`, and at least
one row has both event date and generation date `d`, return those rows
verbatim without touching the sheet or the external sources; if rows for `d`
exist but none was generated on `d`, drop every row with event date `d` and
regenerate; otherwise just generate and append. -/
def generate_daily_predictions (model : String) (d now : Int)
    (store0 : Option (List Row)) (fixtures : List Fixture)
    (pred : String → String → Except Unit (Option PredictRet)) : GenResult :=
  match store0 with
  | none => generate_go model now [] fixtures pred
  | some df =>
    if d ∈ df.map (fun r => dateOf r.datetime) then
      if 0 < (df.filter (fun r =>
          decide (dateOf r.datetime = d ∧ dateOf r.genTime = d))).length then
        { returned := df.filter (fun r =>
            decide (dateOf r.datetime = d ∧ dateOf r.genTime = d)),
          store := df, modelCalls := [], oddsFetched := false }
      else
        generate_go model now
          (df.filter (fun r => decide (¬ dateOf r.datetime = d))) fixtures pred
    else generate_go model now df fixtures pred

/-- The list of upset candidates a pass encounters, in processing order: for
each selected row whose fetch succeeds with a "Final" status, a correctly
predicted winner, and winner odds above 100, the record
`(actual_winner, winner_odds, losing_team, loser_odds)` that `update_row`
would store.  Truncated at a raised fetch, where the pass aborts. -/
def upsetCandidates (fetch : Nat → Except Unit Game) :
    List Row → List (Option String × Int × String × Int)
  | [] => []
  | r :: rs =>
    if r.accuracy = none then
      match fetch r.gameId with
      | Except.error _ => []
      | Except.ok g =>
        if g.status ≠ "Final" then upsetCandidates fetch rs
        else if g.winningTeam = some r.predictedWinner ∧ (winnerLoserOdds r g).1 > 100 then
          (g.winningTeam, (winnerLoserOdds r g).1, losingTeamOf r g,
            (winnerLoserOdds r g).2) :: upsetCandidates fetch rs
        else upsetCandidates fetch rs
    else upsetCandidates fetch rs

/-- Increment of `global_correct` contributed by one selected row: 1 exactly
when the fetched game is Final and its winner equals the predicted winner. -/
def dCorrect (r : Row) (g : Game) : Nat :=
  if g.status = "Final" ∧ g.winningTeam = some r.predictedWinner then 1 else 0

/-- Increment of `global_wrong` contributed by one selected row: 1 exactly
when the fetched game is Final and its winner (possibly undeterminable)
differs from the predicted winner. -/
def dWrong (r : Row) (g : Game) : Nat :=
  if g.status = "Final" ∧ ¬ g.winningTeam = some r.predictedWinner then 1 else 0

/-- One step of the biggest-upset state: replace the stored upset exactly
when the candidate's odds-implied margin strictly exceeds the running
margin (predict.py lines 57-59, on a candidate that already passed the
`winner_odds > 100` test). -/
def upsetStep (p : Option (Option String × Int × String × Int) × Int)
    (t : Option String × Int × String × Int) :
    Option (Option String × Int × String × Int) × Int :=
  if tupleDiff t > p.2 then (some t, tupleDiff t) else p

/-! ### Concrete sample data used by the concrete-instance theorems -/

/-- An unresolved row whose prediction will turn out correct, with the
predicted winner priced as an underdog (+150 against -180). -/
def rowA : Row :=
  { gameId := 1, home := "Mets", away := "Braves", predictedWinner := "Mets",
    model := "mlb3year", homeOdds := 150, awayOdds := -180, datetime := 14400,
    genTime := 14000, accuracy := none, homeScore := none, awayScore := none,
    winningPitcher := none, losingPitcher := none, summary := none }

/-- An unresolved row whose prediction will turn out wrong. -/
def rowB : Row :=
  { gameId := 2, home := "Yankees", away := "Rays", predictedWinner := "Yankees",
    model := "mlb3year", homeOdds := -120, awayOdds := 110, datetime := 14500,
    genTime := 14010, accuracy := none, homeScore := none, awayScore := none,
    winningPitcher := none, losingPitcher := none, summary := none }

/-- An already-resolved row (`prediction_accuracy` non-null). -/
def rowC : Row :=
  { gameId := 3, home := "Cubs", away := "Sox", predictedWinner := "Cubs",
    model := "mlb3year", homeOdds := -150, awayOdds := 130, datetime := 13000,
    genTime := 12500, accuracy := some true, homeScore := some 5, awayScore := some 1,
    winningPitcher := some "W", losingPitcher := some "L", summary := some "done" }

/-- An unresolved row whose game will come back Final with no determinable
winner. -/
def rowIndet : Row :=
  { gameId := 4, home := "Reds", away := "Pirates", predictedWinner := "Reds",
    model := "mlb3year", homeOdds := 120, awayOdds := -140, datetime := 14600,
    genTime := 14020, accuracy := none, homeScore := none, awayScore := none,
    winningPitcher := none, losingPitcher := none, summary := none }

/-- An unresolved row whose event started only 60 minutes before the sample
reconciliation instant 100000. -/
def rowRecent : Row :=
  { gameId := 7, home := "Twins", away := "Royals", predictedWinner := "Twins",
    model := "mlb3year", homeOdds := 105, awayOdds := -115, datetime := 99940,
    genTime := 99000, accuracy := none, homeScore := none, awayScore := none,
    winningPitcher := none, losingPitcher := none, summary := none }

/-- An unresolved row whose game is still in progress. -/
def rowLive : Row :=
  { gameId := 9, home := "Giants", away := "Padres", predictedWinner := "Giants",
    model := "mlb3year", homeOdds := 100, awayOdds := -110, datetime := 14700,
    genTime := 14030, accuracy := none, homeScore := none, awayScore := none,
    winningPitcher := none, losingPitcher := none, summary := none }

/-- A row whose event date and generation date both fall on day 10
(`dateOf 14400 = 10`). -/
def rowGen : Row :=
  { gameId := 11, home := "Dodgers", away := "Rockies", predictedWinner := "Dodgers",
    model := "mlb3year", homeOdds := -200, awayOdds := 170, datetime := 14400,
    genTime := 14401, accuracy := none, homeScore := none, awayScore := none,
    winningPitcher := none, losingPitcher := none, summary := none }

/-- Final result for `rowA`: the predicted underdog won. -/
def gameA : Game :=
  { status := "Final", winningTeam := some "Mets", homeScore := 4, awayScore := 2,
    winningPitcher := "PA", losingPitcher := "PB", datetime := 14405, gameId := 1,
    summary := "Mets beat Braves" }

/-- Final result for `rowB`: the predicted favourite lost. -/
def gameB : Game :=
  { status := "Final", winningTeam := some "Rays", homeScore := 1, awayScore := 3,
    winningPitcher := "PC", losingPitcher := "PD", datetime := 14505, gameId := 2,
    summary := "Rays beat Yankees" }

/-- Final result with no determinable winner (e.g. a cancelled event). -/
def gameIndet : Game :=
  { status := "Final", winningTeam := none, homeScore := 0, awayScore := 0,
    winningPitcher := "", losingPitcher := "", datetime := 14605, gameId := 4,
    summary := "suspended" }

/-- A result whose status is not "Final". -/
def gameLive : Game :=
  { status := "Live", winningTeam := none, homeScore := 2, awayScore := 2,
    winningPitcher := "", losingPitcher := "", datetime := 14705, gameId := 9,
    summary := "in progress" }

/-- Results source that answers every sample game id without raising. -/
def fetchAll : Nat → Except Unit Game := fun n =>
  if n = 1 then Except.ok gameA
  else if n = 2 then Except.ok gameB
  else if n = 4 then Except.ok gameIndet
  else if n = 7 then Except.ok gameLive
  else if n = 9 then Except.ok gameLive
  else Except.error ()

/-- Results source that raises for game id 1 but answers game id 2. -/
def fetchErrA : Nat → Except Unit Game := fun n =>
  if n = 2 then Except.ok gameB else Except.error ()

/-- A fixture whose home team is the Mets, with an odds table. -/
def sampleFixture : Fixture :=
  ⟨"Mets", fun t => if t = "Mets" then 150 else -180⟩

/-- A prediction oracle that always predicts the Mets at home. -/
def samplePred : String → String → Except Unit (Option PredictRet) :=
  fun _ _ => Except.ok (some ⟨some "Mets", ⟨1, "Mets", "Braves", 14400⟩⟩)

/-! ### Helper lemmas about one update step -/

theorem update_row_final_nonfinal (r : Row) (g : Game) (s : Stats)
    (h : g.status ≠ "Final") : update_row_final r g s = (r, s) := by
  simp [update_row_final, h]

theorem update_row_final_row_indep (r : Row) (g : Game) (s t : Stats) :
    (update_row_final r g s).1 = (update_row_final r g t).1 := by
  unfold update_row_final
  split_ifs <;> rfl

theorem update_row_final_correct (r : Row) (g : Game) (s : Stats) :
    (update_row_final r g s).2.correct = s.correct + dCorrect r g := by
  by_cases hf : g.status = "Final"
  · by_cases hw : g.winningTeam = some r.predictedWinner
    · simp only [update_row_final, dCorrect, hf, hw]
      split_ifs <;> simp_all
    · simp only [update_row_final, dCorrect, hf, hw]
      split_ifs <;> simp_all
  · simp [update_row_final, dCorrect, hf]

theorem update_row_final_wrong (r : Row) (g : Game) (s : Stats) :
    (update_row_final r g s).2.wrong = s.wrong + dWrong r g := by
  by_cases hf : g.status = "Final"
  · by_cases hw : g.winningTeam = some r.predictedWinner
    · simp only [update_row_final, dWrong, hf, hw]
      split_ifs <;> simp_all
    · simp only [update_row_final, dWrong, hf, hw]
      split_ifs <;> simp_all
  · simp [update_row_final, dWrong, hf]

theorem update_row_final_accuracy_true_iff (r : Row) (g : Game) (s : Stats)
    (hf : g.status = "Final") :
    ((update_row_final r g s).1.accuracy = some true ↔
      g.winningTeam = some r.predictedWinner) := by
  by_cases hw : g.winningTeam = some r.predictedWinner
  · simp only [update_row_final, hf, hw]
    split_ifs <;> simp_all
  · simp only [update_row_final, hf, hw]
    split_ifs <;> simp_all

/-! ### Helper lemmas about the reconciliation sweep -/

theorem reconcileRows_ok_length (fetch : Nat → Except Unit Game) :
    ∀ (rows : List Row) (s : Stats) (rows' : List Row) (s' : Stats),
      (reconcileRows fetch rows s).2 = Except.ok (rows', s') →
      rows'.length = rows.length := by
  intro rows
  induction rows with
  | nil => intro s rows' s' h; simp [reconcileRows] at h; simp [h.1]
  | cons r rs ih =>
    intro s rows' s' h
    rw [reconcileRows] at h
    by_cases hsel : r.accuracy = none
    · rw [if_pos hsel] at h
      cases hf : fetch r.gameId with
      | error e => simp only [hf] at h; simp at h
      | ok g =>
        simp only [hf] at h
        rcases hrec : reconcileRows fetch rs (update_row_final r g s).2 with ⟨calls, res⟩
        simp only [hrec] at h
        cases res with
        | error e => simp at h
        | ok v =>
          rcases v with ⟨rows₀, s₀⟩
          simp at h
          rcases h with ⟨h1, h2⟩
          subst h1
          simp [ih _ rows₀ s₀ (by rw [hrec]), hrec]
    · rw [if_neg hsel] at h
      rcases hrec : reconcileRows fetch rs s with ⟨calls, res⟩
      simp only [hrec] at h
      cases res with
      | error e => simp at h
      | ok v =>
        rcases v with ⟨rows₀, s₀⟩
        simp at h
        rcases h with ⟨h1, h2⟩
        subst h1
        simp [ih s rows₀ s₀ (by rw [hrec]), hrec]

theorem reconcileRows_error_of_mem (fetch : Nat → Except Unit Game) :
    ∀ (rows : List Row) (s : Stats) (r : Row), r ∈ rows → r.accuracy = none →
      fetch r.gameId = Except.error () →
      ∃ s', (reconcileRows fetch rows s).2 = Except.error s' := by
  intro rows
  induction rows with
  | nil => intro s r hmem; simp at hmem
  | cons a as ih =>
    intro s r hmem hsel herr
    rcases List.mem_cons.mp hmem with heq | htail
    · subst heq
      refine ⟨s, ?_⟩
      rw [reconcileRows, if_pos hsel]
      simp only [herr]
    · by_cases ha : a.accuracy = none
      · rw [reconcileRows, if_pos ha]
        cases hf : fetch a.gameId with
        | error e => exact ⟨s, by simp⟩
        | ok g =>
          rcases ih (update_row_final a g s).2 r htail hsel herr with ⟨s', hs'⟩
          rcases hrec : reconcileRows fetch as (update_row_final a g s).2 with ⟨calls, res⟩
          rw [hrec] at hs'
          simp at hs'
          subst hs'
          exact ⟨s', by simp [hrec]⟩
      · rw [reconcileRows, if_neg ha]
        rcases ih s r htail hsel herr with ⟨s', hs'⟩
        rcases hrec : reconcileRows fetch as s with ⟨calls, res⟩
        rw [hrec] at hs'
        simp at hs'
        subst hs'
        exact ⟨s', by simp [hrec]⟩

theorem reconcileRows_calls_eq (fetch : Nat → Except Unit Game) :
    ∀ (rows : List Row) (s : Stats),
      (∀ r ∈ rows, r.accuracy = none → ∃ g, fetch r.gameId = Except.ok g) →
      (reconcileRows fetch rows s).1 =
        (rows.filter (fun r => decide (r.accuracy = none))).map Row.gameId := by
  intro rows
  induction rows with
  | nil => intro s _; simp [reconcileRows]
  | cons a as ih =>
    intro s hok
    by_cases ha : a.accuracy = none
    · rcases hok a (List.mem_cons_self a as) ha with ⟨g, hg⟩
      rw [reconcileRows, if_pos ha]
      simp only [hg]
      have htail := ih (update_row_final a g s).2
        (fun r hr hacc => hok r (List.mem_cons_of_mem a hr) hacc)
      rcases hrec : reconcileRows fetch as (update_row_final a g s).2 with ⟨calls, res⟩
      rw [hrec] at htail
      simp only at htail
      cases res with
      | error e => simp [List.filter_cons, ha, htail]
      | ok v => rcases v with ⟨rows₀, s₀⟩; simp [List.filter_cons, ha, htail]
    · rw [reconcileRows, if_neg ha]
      have htail := ih s (fun r hr hacc => hok r (List.mem_cons_of_mem a hr) hacc)
      rcases hrec : reconcileRows fetch as s with ⟨calls, res⟩
      rw [hrec] at htail
      simp only at htail
      cases res with
      | error e => simp [List.filter_cons, ha, htail]
      | ok v => rcases v with ⟨rows₀, s₀⟩; simp [List.filter_cons, ha, htail]

theorem reconcileRows_shift (fetch : Nat → Except Unit Game) :
    ∀ (rows : List Row) (s t : Stats) (rows₁ : List Row) (s₁ : Stats),
      (reconcileRows fetch rows s).2 = Except.ok (rows₁, s₁) →
      ∃ t₁, (reconcileRows fetch rows t).2 = Except.ok (rows₁, t₁) ∧
        t₁.correct + s.correct = s₁.correct + t.correct ∧
        t₁.wrong + s.wrong = s₁.wrong + t.wrong := by
  intro rows
  induction rows with
  | nil =>
    intro s t rows₁ s₁ h
    simp [reconcileRows] at h
    rcases h with ⟨h1, h2⟩
    subst h1; subst h2
    exact ⟨t, by simp [reconcileRows], by omega, by omega⟩
  | cons a as ih =>
    intro s t rows₁ s₁ h
    rw [reconcileRows] at h
    by_cases ha : a.accuracy = none
    · rw [if_pos ha] at h
      cases hf : fetch a.gameId with
      | error e => simp only [hf] at h; simp at h
      | ok g =>
        simp only [hf] at h
        rcases hrec : reconcileRows fetch as (update_row_final a g s).2 with ⟨calls, res⟩
        simp only [hrec] at h
        cases res with
        | error e => simp at h
        | ok v =>
          rcases v with ⟨rows₀, s₀⟩
          simp at h
          rcases h with ⟨h1, h2⟩
          rcases ih (update_row_final a g s).2 (update_row_final a g t).2 rows₀ s₀
            (by rw [hrec]) with ⟨t₁, ht₁, hc, hw⟩
          refine ⟨t₁, ?_, ?_, ?_⟩
          · rw [reconcileRows, if_pos ha]
            simp only [hf]
            rcases hrec' : reconcileRows fetch as (update_row_final a g t).2 with ⟨calls', res'⟩
            rw [hrec'] at ht₁
            simp only at ht₁
            cases res' with
            | error e => simp at ht₁
            | ok v' =>
              rcases v' with ⟨rows₀', t₁'⟩
              simp at ht₁
              rcases ht₁ with ⟨hr', ht'⟩
              subst hr'; subst ht'
              simp [← h1, update_row_final_row_indep a g t s]
          · have hcs := update_row_final_correct a g s
            have hct := update_row_final_correct a g t
            subst h2; omega
          · have hws := update_row_final_wrong a g s
            have hwt := update_row_final_wrong a g t
            subst h2; omega
    · rw [if_neg ha] at h
      rcases hrec : reconcileRows fetch as s with ⟨calls, res⟩
      simp only [hrec] at h
      cases res with
      | error e => simp at h
      | ok v =>
        rcases v with ⟨rows₀, s₀⟩
        simp at h
        rcases h with ⟨h1, h2⟩
        rcases ih s t rows₀ s₀ (by rw [hrec]) with ⟨t₁, ht₁, hc, hw⟩
        refine ⟨t₁, ?_, ?_, ?_⟩
        · rw [reconcileRows, if_neg ha]
          rcases hrec' : reconcileRows fetch as t with ⟨calls', res'⟩
          rw [hrec'] at ht₁
          simp only at ht₁
          cases res' with
          | error e => simp at ht₁
          | ok v' =>
            rcases v' with ⟨rows₀', t₁'⟩
            simp at ht₁
            rcases ht₁ with ⟨hr', ht'⟩
            subst hr'; subst ht'
            simp [← h1]
        · subst h2; omega
        · subst h2; omega

theorem reconcileRows_ok_frame (fetch : Nat → Except Unit Game) :
    ∀ (rows : List Row) (s : Stats) (rows' : List Row) (s' : Stats),
      (reconcileRows fetch rows s).2 = Except.ok (rows', s') →
      ∀ (i : Nat) (r : Row), rows[i]? = some r →
        (r.accuracy ≠ none → rows'[i]? = some r) ∧
        (∀ g, fetch r.gameId = Except.ok g → g.status ≠ "Final" → rows'[i]? = some r) := by
  intro rows
  induction rows with
  | nil => intro s rows' s' h i r hi; simp at hi
  | cons a as ih =>
    intro s rows' s' h i r hi
    rw [reconcileRows] at h
    by_cases ha : a.accuracy = none
    · rw [if_pos ha] at h
      cases hf : fetch a.gameId with
      | error e => simp only [hf] at h; simp at h
      | ok g =>
        simp only [hf] at h
        rcases hrec : reconcileRows fetch as (update_row_final a g s).2 with ⟨calls, res⟩
        simp only [hrec] at h
        cases res with
        | error e => simp at h
        | ok v =>
          rcases v with ⟨rows₀, s₀⟩
          simp at h
          rcases h with ⟨h1, h2⟩
          cases i with
          | zero =>
            simp at hi
            subst hi
            constructor
            · intro hacc; exact absurd ha hacc
            · intro g' hg' hst
              rw [hf] at hg'
              injection hg' with hgg
              subst hgg
              rw [← h1]
              simp [update_row_final_nonfinal a g s hst]
          | succ j =>
            simp at hi
            have := ih (update_row_final a g s).2 rows₀ s₀ (by rw [hrec]) j r hi
            rw [← h1]
            simpa using this
    · rw [if_neg ha] at h
      rcases hrec : reconcileRows fetch as s with ⟨calls, res⟩
      simp only [hrec] at h
      cases res with
      | error e => simp at h
      | ok v =>
        rcases v with ⟨rows₀, s₀⟩
        simp at h
        rcases h with ⟨h1, h2⟩
        cases i with
        | zero =>
          simp at hi
          subst hi
          rw [← h1]
          exact ⟨fun _ => by simp, fun g _ _ => by simp⟩
        | succ j =>
          simp at hi
          have := ih s rows₀ s₀ (by rw [hrec]) j r hi
          rw [← h1]
          simpa using this

/-! ### Helper lemmas about the biggest-upset state -/

theorem update_row_final_upset_cand (r : Row) (g : Game) (s : Stats)
    (hf : g.status = "Final") (hw : g.winningTeam = some r.predictedWinner)
    (h100 : (winnerLoserOdds r g).1 > 100) :
    ((update_row_final r g s).2.biggestUpset, (update_row_final r g s).2.upsetDiff) =
      upsetStep (s.biggestUpset, s.upsetDiff)
        (g.winningTeam, (winnerLoserOdds r g).1, losingTeamOf r g, (winnerLoserOdds r g).2) := by
  simp only [update_row_final, hf, hw, upsetStep, tupleDiff]
  split_ifs <;> simp_all

theorem update_row_final_upset_skip (r : Row) (g : Game) (s : Stats)
    (h : ¬ (g.status = "Final" ∧ g.winningTeam = some r.predictedWinner ∧
      (winnerLoserOdds r g).1 > 100)) :
    (update_row_final r g s).2.biggestUpset = s.biggestUpset ∧
      (update_row_final r g s).2.upsetDiff = s.upsetDiff := by
  by_cases hf : g.status = "Final"
  · by_cases hw : g.winningTeam = some r.predictedWinner
    · have h100 : ¬ (winnerLoserOdds r g).1 > 100 := by tauto
      simp only [update_row_final, hf, hw]
      split_ifs <;> simp_all
    · simp only [update_row_final, hf, hw]
      split_ifs <;> simp_all
  · simp [update_row_final_nonfinal r g s hf]

theorem reconcileRows_upset_fold (fetch : Nat → Except Unit Game) :
    ∀ (rows : List Row) (s : Stats) (rows' : List Row) (s' : Stats),
      (reconcileRows fetch rows s).2 = Except.ok (rows', s') →
      (s'.biggestUpset, s'.upsetDiff) =
        (upsetCandidates fetch rows).foldl upsetStep (s.biggestUpset, s.upsetDiff) := by
  intro rows
  induction rows with
  | nil =>
    intro s rows' s' h
    simp [reconcileRows] at h
    simp [upsetCandidates, h.2]
  | cons a as ih =>
    intro s rows' s' h
    rw [reconcileRows] at h
    rw [upsetCandidates]
    by_cases ha : a.accuracy = none
    · rw [if_pos ha] at h
      rw [if_pos ha]
      cases hf : fetch a.gameId with
      | error e => simp only [hf] at h; simp at h
      | ok g =>
        simp only [hf] at h
        rcases hrec : reconcileRows fetch as (update_row_final a g s).2 with ⟨calls, res⟩
        simp only [hrec] at h
        cases res with
        | error e => simp at h
        | ok v =>
          rcases v with ⟨rows₀, s₀⟩
          simp at h
          rcases h with ⟨h1, h2⟩
          subst h2
          have htail := ih (update_row_final a g s).2 rows₀ s₀ (by rw [hrec])
          simp only
          by_cases hcand : g.status = "Final" ∧ g.winningTeam = some a.predictedWinner ∧
              (winnerLoserOdds a g).1 > 100
          · rcases hcand with ⟨hcf, hcw, hc100⟩
            have hne : ¬ g.status ≠ "Final" := by simp [hcf]
            rw [if_neg hne, if_pos ⟨hcw, hc100⟩]
            rw [List.foldl_cons]
            rw [← update_row_final_upset_cand a g s hcf hcw hc100]
            exact htail
          · have hskip := update_row_final_upset_skip a g s hcand
            have hsame :
                (upsetCandidates fetch as : List (Option String × Int × String × Int)) =
                (if g.status ≠ "Final" then upsetCandidates fetch as
                 else if g.winningTeam = some a.predictedWinner ∧ (winnerLoserOdds a g).1 > 100 then
                   (g.winningTeam, (winnerLoserOdds a g).1, losingTeamOf a g,
                     (winnerLoserOdds a g).2) :: upsetCandidates fetch as
                 else upsetCandidates fetch as) := by
              by_cases hst : g.status ≠ "Final"
              · rw [if_pos hst]
              · rw [if_neg hst]
                have : ¬ (g.winningTeam = some a.predictedWinner ∧
                    (winnerLoserOdds a g).1 > 100) := by tauto
                rw [if_neg this]
            rw [← hsame]
            rw [htail, hskip.1, hskip.2]
    · rw [if_neg ha] at h
      rw [if_neg ha]
      rcases hrec : reconcileRows fetch as s with ⟨calls, res⟩
      simp only [hrec] at h
      cases res with
      | error e => simp at h
      | ok v =>
        rcases v with ⟨rows₀, s₀⟩
        simp at h
        rcases h with ⟨h1, h2⟩
        subst h2
        exact ih s rows₀ s₀ (by rw [hrec])

theorem upsetFold_margin :
    ∀ (l : List (Option String × Int × String × Int))
      (p : Option (Option String × Int × String × Int) × Int),
      (l.foldl upsetStep p).2 = l.foldl (fun m t => max m (tupleDiff t)) p.2 := by
  intro l
  induction l with
  | nil => intro p; rfl
  | cons t ts ih =>
    intro p
    rw [List.foldl_cons, List.foldl_cons, ih]
    have : (upsetStep p t).2 = max p.2 (tupleDiff t) := by
      unfold upsetStep
      split_ifs <;> omega
    rw [this]

theorem upsetFold_margin_mono :
    ∀ (l : List (Option String × Int × String × Int))
      (p : Option (Option String × Int × String × Int) × Int),
      p.2 ≤ (l.foldl upsetStep p).2 := by
  intro l
  induction l with
  | nil => intro p; simp
  | cons t ts ih =>
    intro p
    rw [List.foldl_cons]
    refine le_trans ?_ (ih (upsetStep p t))
    unfold upsetStep
    split_ifs <;> omega

theorem upsetFold_margin_bound :
    ∀ (l : List (Option String × Int × String × Int))
      (p : Option (Option String × Int × String × Int) × Int)
      (t : Option String × Int × String × Int), t ∈ l →
      tupleDiff t ≤ (l.foldl upsetStep p).2 := by
  intro l
  induction l with
  | nil => intro p t ht; simp at ht
  | cons u us ih =>
    intro p t ht
    rw [List.foldl_cons]
    rcases List.mem_cons.mp ht with heq | htail
    · subst heq
      refine le_trans ?_ (upsetFold_margin_mono us (upsetStep p t))
      unfold upsetStep
      split_ifs <;> omega
    · exact ih (upsetStep p u) t htail

theorem upsetFold_provenance :
    ∀ (l : List (Option String × Int × String × Int))
      (p : Option (Option String × Int × String × Int) × Int),
      (l.foldl upsetStep p).1 = p.1 ∨ ∃ t ∈ l, (l.foldl upsetStep p).1 = some t := by
  intro l
  induction l with
  | nil => intro p; left; rfl
  | cons t ts ih =>
    intro p
    rw [List.foldl_cons]
    rcases ih (upsetStep p t) with h | ⟨u, hu, hsome⟩
    · rw [h]
      unfold upsetStep
      split_ifs
      · right; exact ⟨t, List.mem_cons_self t ts, rfl⟩
      · left; rfl
    · right; exact ⟨u, List.mem_cons_of_mem t hu, hsome⟩

theorem upsetFold_good :
    ∀ (l : List (Option String × Int × String × Int))
      (p : Option (Option String × Int × String × Int) × Int),
      (p.1 = none ∨ ∃ t, p.1 = some t ∧ tupleDiff t = p.2) →
      ((l.foldl upsetStep p).1 = none ∨
        ∃ t, (l.foldl upsetStep p).1 = some t ∧ tupleDiff t = (l.foldl upsetStep p).2) := by
  intro l
  induction l with
  | nil => intro p h; exact h
  | cons t ts ih =>
    intro p h
    rw [List.foldl_cons]
    refine ih (upsetStep p t) ?_
    unfold upsetStep
    split_ifs
    · right; exact ⟨t, rfl, rfl⟩
    · exact h

theorem upsetFold_none :
    ∀ (l : List (Option String × Int × String × Int))
      (p : Option (Option String × Int × String × Int) × Int),
      (l.foldl upsetStep p).1 = none → p.1 = none ∧ ∀ t ∈ l, tupleDiff t ≤ p.2 := by
  intro l
  induction l with
  | nil => intro p h; exact ⟨h, by simp⟩
  | cons t ts ih =>
    intro p h
    rw [List.foldl_cons] at h
    have htail := ih (upsetStep p t) h
    have hstep : upsetStep p t = p := by
      by_contra hne
      have : (upsetStep p t).1 = some t := by
        unfold upsetStep at hne ⊢
        split_ifs at hne ⊢ with hcond
        · rfl
        · exact absurd rfl hne
      rw [this] at htail
      exact Option.some_ne_none t htail.1
    rw [hstep] at htail
    refine ⟨htail.1, ?_⟩
    intro u hu
    rcases List.mem_cons.mp hu with heq | hmem
    · subst heq
      by_contra hgt
      push_neg at hgt
      have : upsetStep p u = (some u, tupleDiff u) := by
        unfold upsetStep
        rw [if_pos hgt]
      rw [this] at hstep
      have := congrArg Prod.fst hstep
      simp at this
      rw [← this] at htail
      exact Option.some_ne_none u htail.1
    · exact htail.2 u hmem

theorem upsetCandidates_winner_pos (fetch : Nat → Except Unit Game) :
    ∀ (rows : List Row) (t : Option String × Int × String × Int),
      t ∈ upsetCandidates fetch rows → 100 < t.2.1 := by
  intro rows
  induction rows with
  | nil => intro t ht; simp [upsetCandidates] at ht
  | cons a as ih =>
    intro t ht
    rw [upsetCandidates] at ht
    by_cases ha : a.accuracy = none
    · rw [if_pos ha] at ht
      cases hf : fetch a.gameId with
      | error e => rw [hf] at ht; simp at ht
      | ok g =>
        rw [hf] at ht
        simp only at ht
        by_cases hst : g.status ≠ "Final"
        · rw [if_pos hst] at ht; exact ih t ht
        · rw [if_neg hst] at ht
          by_cases hc : g.winningTeam = some a.predictedWinner ∧ (winnerLoserOdds a g).1 > 100
          · rw [if_pos hc] at ht
            rcases List.mem_cons.mp ht with heq | hmem
            · subst heq; exact hc.2
            · exact ih t hmem
          · rw [if_neg hc] at ht; exact ih t ht
    · rw [if_neg ha] at ht; exact ih t ht

theorem upsetCandidates_diff_pos (fetch : Nat → Except Unit Game) :
    ∀ (rows : List Row),
      (∀ r ∈ rows, 100 ≤ |r.homeOdds| ∧ 100 ≤ |r.awayOdds|) →
      ∀ t ∈ upsetCandidates fetch rows, 1 ≤ tupleDiff t := by
  intro rows
  induction rows with
  | nil => intro _ t ht; simp [upsetCandidates] at ht
  | cons a as ih =>
    intro hodds t ht
    have htail := ih (fun r hr => hodds r (List.mem_cons_of_mem a hr))
    rw [upsetCandidates] at ht
    by_cases ha : a.accuracy = none
    · rw [if_pos ha] at ht
      cases hf : fetch a.gameId with
      | error e => rw [hf] at ht; simp at ht
      | ok g =>
        rw [hf] at ht
        simp only at ht
        by_cases hst : g.status ≠ "Final"
        · rw [if_pos hst] at ht; exact htail t ht
        · rw [if_neg hst] at ht
          by_cases hc : g.winningTeam = some a.predictedWinner ∧ (winnerLoserOdds a g).1 > 100
          · rw [if_pos hc] at ht
            rcases List.mem_cons.mp ht with heq | hmem
            · subst heq
              have hao := hodds a (List.mem_cons_self a as)
              have h100 := hc.2
              unfold tupleDiff
              simp only
              have habs : |(winnerLoserOdds a g).1| = (winnerLoserOdds a g).1 :=
                abs_of_pos (by omega)
              unfold winnerLoserOdds at habs h100 ⊢
              split_ifs at habs h100 ⊢ <;> simp only at habs h100 ⊢ <;> omega
            · exact htail t hmem
          · rw [if_neg hc] at ht; exact htail t ht
    · rw [if_neg ha] at ht; exact htail t ht

/-- Sheet contents after one generator call, as appended by `generate_go`:
the previous frame followed by the newly built rows. -/
theorem generate_go_store (model : String) (now : Int) (df : List Row)
    (fixtures : List Fixture)
    (pred : String → String → Except Unit (Option PredictRet)) :
    (generate_go model now df fixtures pred).store =
      df ++ (generate_go model now df fixtures pred).returned := rfl

/-- On a pass that does not abort, the emitted summary is computed from the
pass's final statistics. -/
theorem load_report_eq (fetch : Nat → Except Unit Game) (df : List Row) (s : Stats)
    (h : (load_unchecked_predictions fetch df s).aborted = false) :
    (load_unchecked_predictions fetch df s).report =
      reportOf (load_unchecked_predictions fetch df s).stats := by
  unfold load_unchecked_predictions at h ⊢
  rcases hrec : reconcileRows fetch df s with ⟨calls, res⟩
  cases res with
  | error e => rw [hrec] at h; simp at h
  | ok v => rcases v with ⟨df', s'⟩; rfl

/-! ### Claim C1 -/

/-- C1: the claim states that for every fixture the external model is
invoked with the model identifier passed to the generator and that the
record's `model` field names the model actually used.  The code contradicts
this: `generate_daily_predictions` invokes `mlb.predict_next_game` with the
literal identifier "mlb2023" for every fixture regardless of the `model`
argument (predict.py line 209, make_predictions.py line 136), while the
produced record's `model` field carries the `model` argument (line 219).
Evaluated here at the argument "mlb3year": the only model call uses
"mlb2023", the stored record says "mlb3year", and the two differ, so the
record does not name the model actually used. -/
theorem generation_model_divergence :
    (generate_daily_predictions "mlb3year" 10 14000 none [sampleFixture] samplePred).modelCalls =
      [("mlb2023", "Mets")] ∧
    (generate_daily_predictions "mlb3year" 10 14000 none [sampleFixture]
      samplePred).returned.map Row.model = ["mlb3year"] ∧
    ("mlb3year" : String) ≠ "mlb2023" := by
  refine ⟨by decide, by decide, by decide⟩

/-! ### Claim C2 -/

/-- C2 counterexample: the claim states that a fetch failure on one
unresolved row is isolated to that row, the other selected rows still being
updated and persisted in the same pass.  At this concrete input the fetch
for `rowA` (game id 1) raises while the fetch for `rowB` (game id 2) would
succeed with a Final result, yet the pass aborts: the persisted sheet is
exactly the input (rowB is not updated) and no summary is produced. -/
theorem fetch_error_aborts_pass_cex :
    (load_unchecked_predictions fetchErrA [rowA, rowB] initStats).persisted = [rowA, rowB] ∧
    (load_unchecked_predictions fetchErrA [rowA, rowB] initStats).aborted = true ∧
    rowB.accuracy = none ∧ fetchErrA rowB.gameId = Except.ok gameB ∧
    gameB.status = "Final" ∧ gameB.winningTeam = some "Rays" := by
  refine ⟨by decide, by decide, by decide, rfl, by decide, by decide⟩

/-- C2 (amended): if fetching the result of any selected (null-accuracy) row
raises, the entire reconciliation pass is aborted: the exception propagates
out of the row sweep, the sheet keeps its previous contents (no other row's
update is persisted), and no summary is emitted; every unresolved row,
including the failed one, is left Pending for the next pass. -/
theorem fetch_error_aborts_pass (fetch : Nat → Except Unit Game)
    (df : List Row) (s : Stats) (r : Row) (hmem : r ∈ df)
    (hsel : r.accuracy = none) (herr : fetch r.gameId = Except.error ()) :
    (load_unchecked_predictions fetch df s).aborted = true ∧
    (load_unchecked_predictions fetch df s).persisted = df ∧
    (load_unchecked_predictions fetch df s).report = none := by
  rcases reconcileRows_error_of_mem fetch df s r hmem hsel herr with ⟨s', hs'⟩
  unfold load_unchecked_predictions
  rcases hrec : reconcileRows fetch df s with ⟨calls, res⟩
  rw [hrec] at hs'
  simp only at hs'
  cases res with
  | error e => exact ⟨rfl, rfl, rfl⟩
  | ok v => simp at hs'

/-- C2 witness: the amended theorem applied at the concrete aborting pass. -/
theorem fetch_error_aborts_pass_witness :
    (load_unchecked_predictions fetchErrA [rowA, rowB] initStats).aborted = true ∧
    (load_unchecked_predictions fetchErrA [rowA, rowB] initStats).persisted = [rowA, rowB] ∧
    (load_unchecked_predictions fetchErrA [rowA, rowB] initStats).report = none :=
  fetch_error_aborts_pass fetchErrA [rowA, rowB] initStats rowA (by decide) (by decide) rfl

/-! ### Claim C3 -/

/-- C3 counterexample: the claim states that the recurring variant attempts
a result lookup exactly for the unresolved rows whose event started at least
6 hours before now.  At this concrete input, `rowRecent` started 60 minutes
before the instant 100000, so the specification's selection is empty, yet
the pass attempts a lookup for its game id 7: the code's selection ignores
the event time. -/
theorem lookup_without_lead_time_cex :
    (load_unchecked_predictions fetchAll [rowRecent] initStats).calls = [7] ∧
    selectionPerSpec 100000 [rowRecent] = [] ∧
    rowRecent.accuracy = none ∧ rowRecent.datetime = 100000 - 60 := by
  refine ⟨by decide, by decide, by decide, by decide⟩

/-- C3 (amended): a reconciliation pass of the recurring variant attempts a
result lookup exactly for the rows whose `prediction_accuracy` is null,
with no condition on the event-start time: rows of events that started less
than 6 hours ago (or have not started) are looked up as well.  Stated for a
pass in which no selected lookup raises. -/
theorem lookup_selection_ignores_event_time (fetch : Nat → Except Unit Game)
    (df : List Row) (s : Stats)
    (hok : ∀ r ∈ df, r.accuracy = none → ∃ g, fetch r.gameId = Except.ok g) :
    (load_unchecked_predictions fetch df s).calls =
      (df.filter (fun r => decide (r.accuracy = none))).map Row.gameId := by
  have h := reconcileRows_calls_eq fetch df s hok
  unfold load_unchecked_predictions
  rcases hrec : reconcileRows fetch df s with ⟨calls, res⟩
  rw [hrec] at h
  simp only at h
  cases res with
  | error e => simpa using h
  | ok v => rcases v with ⟨df', s'⟩; simpa using h

/-- C3 witness: the amended theorem applied at a store holding one recent
unresolved row and one resolved row. -/
theorem lookup_selection_ignores_event_time_witness :
    (load_unchecked_predictions fetchAll [rowC, rowRecent] initStats).calls =
      (([rowC, rowRecent] : List Row).filter
        (fun r => decide (r.accuracy = none))).map Row.gameId :=
  lookup_selection_ignores_event_time fetchAll [rowC, rowRecent] initStats
    (by intro r hr hacc
        rcases List.mem_cons.mp hr with h1 | h1
        · subst h1; exact absurd hacc (by decide)
        · simp at h1; subst h1; exact ⟨gameLive, rfl⟩)

/-! ### Claim C4 -/

/-- C4 counterexample: the claim states that a row whose event is Final but
whose winner is not determinable increments neither counter.  At this
concrete input the fetched game is Final with `winning_team` absent; the
row's `prediction_accuracy` stays null, yet `wrong_count` is incremented
(the code's `else` branch covers the indeterminate case, predict.py lines
64-65). -/
theorem indeterminate_increments_wrong_cex :
    (load_unchecked_predictions fetchAll [rowIndet] initStats).stats.wrong = 1 ∧
    (load_unchecked_predictions fetchAll [rowIndet] initStats).stats.correct = 0 ∧
    (load_unchecked_predictions fetchAll [rowIndet] initStats).persisted.map Row.accuracy =
      [none] ∧
    fetchAll rowIndet.gameId = Except.ok gameIndet ∧
    gameIndet.status = "Final" ∧ gameIndet.winningTeam = none := by
  refine ⟨by decide, by decide, by decide, rfl, by decide, by decide⟩

/-- C4 (amended): for a selected row whose fetched status is Final,
`correct_count` is incremented exactly when the row's accuracy becomes 1.0;
every other Final row increments `wrong_count` — including the Indeterminate
case (winner not determinable), whose accuracy stays null but which still
increments `wrong_count`. -/
theorem counter_increments_by_outcome (r : Row) (g : Game) (s : Stats)
    (hf : g.status = "Final") :
    (((update_row_final r g s).1.accuracy = some true ∧
        (update_row_final r g s).2.correct = s.correct + 1 ∧
        (update_row_final r g s).2.wrong = s.wrong) ∨
      ((update_row_final r g s).1.accuracy ≠ some true ∧
        (update_row_final r g s).2.correct = s.correct ∧
        (update_row_final r g s).2.wrong = s.wrong + 1)) ∧
    (g.winningTeam = none → (update_row_final r g s).1.accuracy = none ∧
      (update_row_final r g s).2.wrong = s.wrong + 1) := by
  have hc := update_row_final_correct r g s
  have hw := update_row_final_wrong r g s
  constructor
  · by_cases hwin : g.winningTeam = some r.predictedWinner
    · left
      refine ⟨(update_row_final_accuracy_true_iff r g s hf).mpr hwin, ?_, ?_⟩
      · rw [hc]; simp [dCorrect, hf, hwin]
      · rw [hw]; simp [dWrong, hf, hwin]
    · right
      refine ⟨fun hacc => hwin ((update_row_final_accuracy_true_iff r g s hf).mp hacc),
        ?_, ?_⟩
      · rw [hc]; simp [dCorrect, hf, hwin]
      · rw [hw]; simp [dWrong, hf, hwin]
  · intro hnone
    have hwin : ¬ g.winningTeam = some r.predictedWinner := by simp [hnone]
    constructor
    · simp only [update_row_final, hf, hnone]
      split_ifs <;> simp_all
    · rw [hw]; simp [dWrong, hf, hwin]

/-- C4 witness: the amended theorem applied to the indeterminate Final
sample game. -/
theorem counter_increments_by_outcome_witness :
    (((update_row_final rowIndet gameIndet initStats).1.accuracy = some true ∧
        (update_row_final rowIndet gameIndet initStats).2.correct = initStats.correct + 1 ∧
        (update_row_final rowIndet gameIndet initStats).2.wrong = initStats.wrong) ∨
      ((update_row_final rowIndet gameIndet initStats).1.accuracy ≠ some true ∧
        (update_row_final rowIndet gameIndet initStats).2.correct = initStats.correct ∧
        (update_row_final rowIndet gameIndet initStats).2.wrong = initStats.wrong + 1)) ∧
    (gameIndet.winningTeam = none →
      (update_row_final rowIndet gameIndet initStats).1.accuracy = none ∧
      (update_row_final rowIndet gameIndet initStats).2.wrong = initStats.wrong + 1) :=
  counter_increments_by_outcome rowIndet gameIndet initStats (by decide)

/-! ### Claim C5 -/

/-- C5: generation is idempotent per date — if the sheet already holds a row
whose event date and whose generation date both equal the target date, a
second generation call for that date returns exactly the rows satisfying
both conditions, leaves the sheet unchanged, performs no model invocation,
and does not call the odds source. -/
theorem generation_dedup_idempotent (model : String) (d now : Int)
    (df : List Row) (fixtures : List Fixture)
    (pred : String → String → Except Unit (Option PredictRet))
    (r : Row) (hmem : r ∈ df) (hd : dateOf r.datetime = d)
    (hg : dateOf r.genTime = d) :
    generate_daily_predictions model d now (some df) fixtures pred =
      { returned := df.filter (fun x =>
          decide (dateOf x.datetime = d ∧ dateOf x.genTime = d)),
        store := df, modelCalls := [], oddsFetched := false } := by
  have hmemdate : d ∈ df.map (fun x => dateOf x.datetime) :=
    List.mem_map.mpr ⟨r, hmem, hd⟩
  have hfil : r ∈ df.filter (fun x =>
      decide (dateOf x.datetime = d ∧ dateOf x.genTime = d)) :=
    List.mem_filter.mpr ⟨hmem, by simp [hd, hg]⟩
  have hlen : 0 < (df.filter (fun x =>
      decide (dateOf x.datetime = d ∧ dateOf x.genTime = d))).length :=
    List.length_pos.mpr (List.ne_nil_of_mem hfil)
  simp only [generate_daily_predictions]
  rw [if_pos hmemdate, if_pos hlen]

/-- C5 witness: the idempotence theorem applied to a sheet holding `rowGen`,
whose event date and generation date are both day 10. -/
theorem generation_dedup_idempotent_witness :
    generate_daily_predictions "mlb3year" 10 15000 (some [rowGen]) [sampleFixture]
        samplePred =
      { returned := ([rowGen] : List Row).filter (fun x =>
          decide (dateOf x.datetime = 10 ∧ dateOf x.genTime = 10)),
        store := [rowGen], modelCalls := [], oddsFetched := false } :=
  generation_dedup_idempotent "mlb3year" 10 15000 [rowGen] [sampleFixture] samplePred
    rowGen (by decide) (by decide) (by decide)

/-! ### Claim C6 -/

/-- C6: the store never deletes rows, except that generation for a target
date `d` may drop rows only when they belong to date `d`'s whole event-date
range and no row of that range carries generation date `d` (the
specification's "prior generation attempt for that date produced zero rows",
its §4.4 gloss being "rows exist for that date but none carry a matching
generation timestamp"): a reconciliation pass never changes the number of
persisted rows, and any row a generation call drops satisfies that
condition. -/
theorem rows_survive_unless_stale_date (fetch : Nat → Except Unit Game)
    (df dfg : List Row) (s : Stats) (model : String) (d now : Int)
    (fixtures : List Fixture)
    (pred : String → String → Except Unit (Option PredictRet)) (r : Row) :
    (load_unchecked_predictions fetch df s).persisted.length = df.length ∧
    (r ∈ dfg →
      r ∈ (generate_daily_predictions model d now (some dfg) fixtures pred).store ∨
        (dateOf r.datetime = d ∧
          ∀ x ∈ dfg, dateOf x.datetime = d → ¬ dateOf x.genTime = d)) := by
  constructor
  · unfold load_unchecked_predictions
    rcases hrec : reconcileRows fetch df s with ⟨calls, res⟩
    cases res with
    | error e => rfl
    | ok v =>
      rcases v with ⟨df', s'⟩
      simpa using reconcileRows_ok_length fetch df s df' s' (by rw [hrec])
  · intro hmem
    simp only [generate_daily_predictions]
    by_cases hdate : d ∈ dfg.map (fun x => dateOf x.datetime)
    · rw [if_pos hdate]
      by_cases hfil : 0 < (dfg.filter (fun x =>
          decide (dateOf x.datetime = d ∧ dateOf x.genTime = d))).length
      · rw [if_pos hfil]
        left
        exact hmem
      · rw [if_neg hfil]
        by_cases hrd : dateOf r.datetime = d
        · right
          refine ⟨hrd, ?_⟩
          have hnil : dfg.filter (fun x =>
              decide (dateOf x.datetime = d ∧ dateOf x.genTime = d)) = [] := by
            rcases hl : dfg.filter (fun x =>
                decide (dateOf x.datetime = d ∧ dateOf x.genTime = d)) with _ | ⟨y, ys⟩
            · exact hl
            · rw [hl] at hfil; simp at hfil
          intro x hx hxd hxg
          have hxmem : x ∈ dfg.filter (fun x =>
              decide (dateOf x.datetime = d ∧ dateOf x.genTime = d)) :=
            List.mem_filter.mpr ⟨hx, by simp [hxd, hxg]⟩
          rw [hnil] at hxmem
          simp at hxmem
        · left
          rw [generate_go_store]
          refine List.mem_append_left _ ?_
          exact List.mem_filter.mpr ⟨hmem, by simp [hrd]⟩
    · rw [if_neg hdate]
      left
      rw [generate_go_store]
      exact List.mem_append_left _ hmem

/-- C6 witness: the theorem applied to a one-row sheet on the dedup-hit
path, where the row survives both a reconciliation pass and a generation
call. -/
theorem rows_survive_unless_stale_date_witness :
    (load_unchecked_predictions fetchAll [rowA] initStats).persisted.length =
      ([rowA] : List Row).length ∧
    (rowGen ∈ (generate_daily_predictions "mlb3year" 10 15000 (some [rowGen])
        [sampleFixture] samplePred).store ∨
      (dateOf rowGen.datetime = 10 ∧
        ∀ x ∈ ([rowGen] : List Row), dateOf x.datetime = 10 → ¬ dateOf x.genTime = 10)) :=
  ⟨(rows_survive_unless_stale_date fetchAll [rowA] [rowGen] initStats "mlb3year" 10 15000
      [sampleFixture] samplePred rowGen).1,
   (rows_survive_unless_stale_date fetchAll [rowA] [rowGen] initStats "mlb3year" 10 15000
      [sampleFixture] samplePred rowGen).2 (by decide)⟩

/-! ### Claim C7 -/

/-- C7 counterexample: the claim states the run statistics are rebuilt
fresh each pass, the counts after a pass reflecting only that pass's rows.
Here a first pass reconciles `rowA` (correct); a second pass over a
different sheet reconciles only `rowB`, whose prediction is wrong, yet after
the second pass `correct` is still 1 and the emitted summary reads 50% —
the module-level counters carried over from the first pass. -/
theorem stats_carry_across_passes_cex :
    (load_unchecked_predictions fetchAll [rowB]
      (load_unchecked_predictions fetchAll [rowA] initStats).stats).stats.correct = 1 ∧
    (load_unchecked_predictions fetchAll [rowB]
      (load_unchecked_predictions fetchAll [rowA] initStats).stats).stats.wrong = 1 ∧
    (load_unchecked_predictions fetchAll [rowB]
      (load_unchecked_predictions fetchAll [rowA] initStats).stats).persisted.map
        Row.accuracy = [some false] ∧
    (load_unchecked_predictions fetchAll [rowB]
      (load_unchecked_predictions fetchAll [rowA] initStats).stats).report = some 50 := by
  have hst : (load_unchecked_predictions fetchAll [rowB]
      (load_unchecked_predictions fetchAll [rowA] initStats).stats).stats =
      (⟨1, 1, some (some "Mets", 150, "Braves", -180), 130⟩ : Stats) := by decide
  refine ⟨by decide, by decide, by decide, ?_⟩
  rw [load_report_eq _ _ _ (by decide), hst]
  norm_num [reportOf, percentOf, round2, roundHalfEven, pyTrunc]

/-- C7 (amended): the run statistics are module-level and are never reset
between passes: a completed pass's final counters equal the counters before
the pass plus the contributions of the rows reconciled during the pass (the
same pass run from zeroed counters), while the persisted rows do not depend
on the carried-over counters; a report emitted after a later pass in the
same process therefore includes carry-over from earlier passes. -/
theorem stats_accumulate_across_passes (fetch : Nat → Except Unit Game)
    (df : List Row) (s : Stats)
    (h : (load_unchecked_predictions fetch df s).aborted = false) :
    (load_unchecked_predictions fetch df s).persisted =
      (load_unchecked_predictions fetch df initStats).persisted ∧
    (load_unchecked_predictions fetch df s).stats.correct =
      s.correct + (load_unchecked_predictions fetch df initStats).stats.correct ∧
    (load_unchecked_predictions fetch df s).stats.wrong =
      s.wrong + (load_unchecked_predictions fetch df initStats).stats.wrong := by
  rcases hrec : reconcileRows fetch df s with ⟨calls, res⟩
  have e1 : load_unchecked_predictions fetch df s =
      match (calls, res) with
      | (calls, Except.error s') => ⟨calls, df, s', none, true⟩
      | (calls, Except.ok (df', s')) => ⟨calls, df', s', reportOf s', false⟩ := by
    unfold load_unchecked_predictions
    rw [hrec]
  cases res with
  | error e =>
    rw [e1] at h
    simp at h
  | ok v =>
    rcases v with ⟨df', s'⟩
    rcases reconcileRows_shift fetch df s initStats df' s' (by rw [hrec]) with
      ⟨t₁, ht₁, hc, hw⟩
    rcases hrec0 : reconcileRows fetch df initStats with ⟨calls0, res0⟩
    rw [hrec0] at ht₁
    simp only at ht₁
    have e0 : load_unchecked_predictions fetch df initStats =
        match (calls0, res0) with
        | (calls, Except.error s') => ⟨calls, df, s', none, true⟩
        | (calls, Except.ok (df', s')) => ⟨calls, df', s', reportOf s', false⟩ := by
      unfold load_unchecked_predictions
      rw [hrec0]
    cases res0 with
    | error e => simp at ht₁
    | ok v0 =>
      rcases v0 with ⟨df0, t0⟩
      simp at ht₁
      rcases ht₁ with ⟨hdf0, ht0⟩
      subst hdf0
      subst ht0
      rw [e1, e0]
      simp only
      have hic : initStats.correct = 0 := rfl
      have hiw : initStats.wrong = 0 := rfl
      exact ⟨trivial, by omega, by omega⟩

/-- C7 witness: the amended theorem applied to a pass over `rowA` started
from the carried-over counters (5, 7). -/
theorem stats_accumulate_across_passes_witness :
    (load_unchecked_predictions fetchAll [rowA] (⟨5, 7, none, 0⟩ : Stats)).persisted =
      (load_unchecked_predictions fetchAll [rowA] initStats).persisted ∧
    (load_unchecked_predictions fetchAll [rowA] (⟨5, 7, none, 0⟩ : Stats)).stats.correct =
      5 + (load_unchecked_predictions fetchAll [rowA] initStats).stats.correct ∧
    (load_unchecked_predictions fetchAll [rowA] (⟨5, 7, none, 0⟩ : Stats)).stats.wrong =
      7 + (load_unchecked_predictions fetchAll [rowA] initStats).stats.wrong :=
  stats_accumulate_across_passes fetchAll [rowA] ⟨5, 7, none, 0⟩ (by decide)

/-! ### Claim C8 -/

/-- C8: a reconciliation pass leaves untouched, in every field, each row
whose `prediction_accuracy` is already non-null (resolved rows are never
selected), and each selected row whose fetched status is not "Final" (the
row stays Pending; `update_row` returns it unchanged). -/
theorem resolved_and_pending_rows_unchanged (fetch : Nat → Except Unit Game)
    (df : List Row) (s : Stats) (i : Nat) (r : Row) (hi : df[i]? = some r) :
    (r.accuracy ≠ none → (load_unchecked_predictions fetch df s).persisted[i]? = some r) ∧
    (∀ g, fetch r.gameId = Except.ok g → g.status ≠ "Final" →
      (load_unchecked_predictions fetch df s).persisted[i]? = some r) := by
  rcases hrec : reconcileRows fetch df s with ⟨calls, res⟩
  have e1 : load_unchecked_predictions fetch df s =
      match (calls, res) with
      | (calls, Except.error s') => ⟨calls, df, s', none, true⟩
      | (calls, Except.ok (df', s')) => ⟨calls, df', s', reportOf s', false⟩ := by
    unfold load_unchecked_predictions
    rw [hrec]
  cases res with
  | error e =>
    rw [e1]
    exact ⟨fun _ => hi, fun g _ _ => hi⟩
  | ok v =>
    rcases v with ⟨df', s'⟩
    rw [e1]
    exact reconcileRows_ok_frame fetch df s df' s' (by rw [hrec]) i r hi

/-- C8 witness: the theorem applied to a store holding a resolved row
(position 0) and a selected row whose game is not Final (position 1);
both come through the pass unchanged. -/
theorem resolved_and_pending_rows_unchanged_witness :
    (load_unchecked_predictions fetchAll [rowC, rowLive] initStats).persisted[0]? =
      some rowC ∧
    (load_unchecked_predictions fetchAll [rowC, rowLive] initStats).persisted[1]? =
      some rowLive :=
  ⟨(resolved_and_pending_rows_unchanged fetchAll [rowC, rowLive] initStats 0 rowC
      (by decide)).1 (by decide),
   (resolved_and_pending_rows_unchanged fetchAll [rowC, rowLive] initStats 1 rowLive
      (by decide)).2 gameLive rfl (by decide)⟩

/-! ### Claim C9 -/

/-- C9: over a reconciliation pass started from the initial statistics that
completes without a raised fetch, with all odds in the American convention
(absolute value at least 100): (a) any recorded biggest upset has winner
odds above 100, so a winner priced with negative odds is never selected;
(b) the final upset margin is the maximum of 0 and the odds-implied margins
`(|winner_odds| - 100) + (|loser_odds| - 100)` of the pass's correct
underdog wins; (c) no upset is recorded exactly when the pass has no
correct underdog win; (d) the recorded upset is one of the pass's correct
underdog wins and its margin is the maximum among them — the replacement
rule `odds_diff > margin ∧ winner_odds > 100` selects a maximizer. -/
theorem biggest_upset_maximizes_diff (fetch : Nat → Except Unit Game)
    (df df' : List Row) (s' : Stats)
    (hok : (reconcileRows fetch df initStats).2 = Except.ok (df', s'))
    (hodds : ∀ r ∈ df, 100 ≤ |r.homeOdds| ∧ 100 ≤ |r.awayOdds|) :
    (∀ t, s'.biggestUpset = some t → 100 < t.2.1) ∧
    s'.upsetDiff =
      (upsetCandidates fetch df).foldl (fun m t => max m (tupleDiff t)) 0 ∧
    (s'.biggestUpset = none ↔ upsetCandidates fetch df = []) ∧
    (∀ t, s'.biggestUpset = some t →
      t ∈ upsetCandidates fetch df ∧ tupleDiff t = s'.upsetDiff ∧
      ∀ u ∈ upsetCandidates fetch df, tupleDiff u ≤ tupleDiff t) := by
  have hfold := reconcileRows_upset_fold fetch df initStats df' s' hok
  have hb : s'.biggestUpset = ((upsetCandidates fetch df).foldl upsetStep
      (initStats.biggestUpset, initStats.upsetDiff)).1 := congrArg Prod.fst hfold
  have hd : s'.upsetDiff = ((upsetCandidates fetch df).foldl upsetStep
      (initStats.biggestUpset, initStats.upsetDiff)).2 := congrArg Prod.snd hfold
  have hinitb : initStats.biggestUpset = none := rfl
  have hinitd : initStats.upsetDiff = 0 := rfl
  refine ⟨?_, ?_, ?_, ?_⟩
  · intro t ht
    rw [hb] at ht
    rcases upsetFold_provenance (upsetCandidates fetch df)
        (initStats.biggestUpset, initStats.upsetDiff) with hsame | ⟨u, hu, hsome⟩
    · rw [hsame] at ht
      simp only [hinitb] at ht
      exact absurd ht (by simp)
    · rw [hsome] at ht
      injection ht with htu
      subst htu
      exact upsetCandidates_winner_pos fetch df u hu
  · rw [hd, upsetFold_margin]
    simp only [hinitd]
  · constructor
    · intro hnone
      rw [hb] at hnone
      have hall := (upsetFold_none (upsetCandidates fetch df)
        (initStats.biggestUpset, initStats.upsetDiff) hnone).2
      refine List.eq_nil_iff_forall_not_mem.mpr ?_
      intro t ht
      have h1 := hall t ht
      have h2 := upsetCandidates_diff_pos fetch df hodds t ht
      simp only [hinitd] at h1
      omega
    · intro hnil
      rw [hb, hnil]
      simpa using hinitb
  · intro t ht
    rw [hb] at ht
    rcases upsetFold_provenance (upsetCandidates fetch df)
        (initStats.biggestUpset, initStats.upsetDiff) with hsame | ⟨u, hu, hsome⟩
    · rw [hsame] at ht
      simp only [hinitb] at ht
      exact absurd ht (by simp)
    · have htu : t = u := by
        rw [hsome] at ht
        injection ht with h2
        exact h2.symm
      subst htu
      refine ⟨hu, ?_, ?_⟩
      · rcases upsetFold_good (upsetCandidates fetch df)
            (initStats.biggestUpset, initStats.upsetDiff)
            (Or.inl hinitb) with hnone | ⟨v, hv, hdv⟩
        · rw [hnone] at ht
          exact absurd ht (by simp)
        · rw [hv] at ht
          injection ht with htv
          subst htv
          rw [hd]
          exact hdv
      · intro u' hu'
        have hbound := upsetFold_margin_bound (upsetCandidates fetch df)
          (initStats.biggestUpset, initStats.upsetDiff) u' hu'
        rcases upsetFold_good (upsetCandidates fetch df)
            (initStats.biggestUpset, initStats.upsetDiff)
            (Or.inl hinitb) with hnone | ⟨v, hv, hdv⟩
        · rw [hnone] at ht
          exact absurd ht (by simp)
        · rw [hv] at ht
          injection ht with htv
          subst htv
          omega

/-- C9 witness: the theorem applied to the two-row pass in which the Mets
(+150) beat the Braves (-180) as predicted — the only correct underdog win
— and the Yankees prediction fails. -/
theorem biggest_upset_maximizes_diff_witness :
    ((⟨1, 1, some (some "Mets", 150, "Braves", -180), 130⟩ : Stats).upsetDiff =
      (upsetCandidates fetchAll [rowA, rowB]).foldl (fun m t => max m (tupleDiff t)) 0) ∧
    ((some "Mets", (150 : Int), "Braves", (-180 : Int)) ∈
      upsetCandidates fetchAll [rowA, rowB]) ∧
    (100 : Int) < 150 := by
  have h := biggest_upset_maximizes_diff fetchAll [rowA, rowB]
    [{ rowA with
        datetime := 14405, accuracy := some true, homeScore := some 4,
        awayScore := some 2, winningPitcher := some "PA", losingPitcher := some "PB",
        summary := some "Mets beat Braves" },
     { rowB with
        datetime := 14505, accuracy := some false, homeScore := some 1,
        awayScore := some 3, winningPitcher := some "PC", losingPitcher := some "PD",
        summary := some "Rays beat Yankees" }]
    ⟨1, 1, some (some "Mets", 150, "Braves", -180), 130⟩ rfl (by decide)
  refine ⟨h.2.1, (h.2.2.2 (some "Mets", 150, "Braves", -180) rfl).1,
    h.1 (some "Mets", 150, "Braves", -180) rfl⟩

/-! ### Claim C10 -/

/-- C10: the pass summary is emitted exactly when at least one counter is
positive — both counters zero means no summary and no division is attempted
— and the reported percentage is the integer part (Python `int`, truncation)
of 100 times `round(correct / (correct + wrong), 2)` with round-half-even,
computed over exact rationals; in particular 7 correct and 3 wrong report
exactly 70. -/
theorem accuracy_report_formula :
    (∀ s : Stats, reportOf s = none ↔ s.correct + s.wrong = 0) ∧
    (∀ s : Stats, 0 < s.correct + s.wrong →
      reportOf s = some (pyTrunc (100 * round2
        ((s.correct : ℚ) / ((s.correct : ℚ) + (s.wrong : ℚ)))))) ∧
    percentOf 7 3 = 70 ∧ reportOf ⟨7, 3, none, 0⟩ = some 70 := by
  refine ⟨?_, ?_, ?_, ?_⟩
  · intro s
    unfold reportOf
    split_ifs with hpos
    · simp
      omega
    · simp
      omega
  · intro s hpos
    unfold reportOf percentOf
    rw [if_pos hpos]
  · norm_num [percentOf, round2, roundHalfEven, pyTrunc]
  · norm_num [reportOf, percentOf, round2, roundHalfEven, pyTrunc]

/-- C10 witness: the guard and the formula applied at concrete counters. -/
theorem accuracy_report_formula_witness :
    reportOf ⟨0, 0, none, 0⟩ = none ∧
    reportOf ⟨1, 1, none, 0⟩ = some (pyTrunc (100 * round2
      (((⟨1, 1, none, 0⟩ : Stats).correct : ℚ) /
        (((⟨1, 1, none, 0⟩ : Stats).correct : ℚ) +
          ((⟨1, 1, none, 0⟩ : Stats).wrong : ℚ))))) :=
  ⟨(accuracy_report_formula.1 ⟨0, 0, none, 0⟩).mpr rfl,
   accuracy_report_formula.2.1 ⟨1, 1, none, 0⟩ (by decide)⟩
